import Mathlib

/-!
Verification of the scoring and windowing engine of the astro-weather
repository (`src/astro_weather/meteoblue_client.py`).

Embedding conventions: Python floats are modelled as rationals (`ℚ`),
Python ints as `ℤ`, timestamps as integers `ℤ` (only their ordering and
equality matter to the windowing code), `min_hours` as `ℕ` (an hour
count), and Python `int(x)` as truncation toward zero (`intTrunc`).
The derived dataclass fields `astro_score` and `quality_class`
(computed once in `__post_init__`) are modelled as pure functions of
the input record, applied wherever the Python code reads the field.
-/

/-- Python `int(x)` on a real number: truncation toward zero. -/
def intTrunc (x : ℚ) : ℤ := if 0 ≤ x then ⌊x⌋ else ⌈x⌉

/-- The input fields of the `AstroConditions` dataclass (everything except
the two derived fields `astro_score` and `quality_class`, which are
modelled as functions below). Defaults follow the dataclass defaults. -/
structure AstroConditions where
  timestamp : ℤ
  seeing_arcsec : ℚ
  seeing_index1 : ℤ
  seeing_index2 : ℤ
  jetstream_speed : ℚ
  badlayer_bottom : Option ℤ := none
  badlayer_top : Option ℤ := none
  badlayer_gradient : Option ℚ := none
  totalcloud : ℤ := 0
  lowclouds : ℤ := 0
  midclouds : ℤ := 0
  highclouds : ℤ := 0
  visibility : ℤ := 0
  fog_probability : ℤ := 0
  nightsky_brightness_actual : ℚ := 0
  nightsky_brightness_clearsky : ℚ := 0
  moonlight_actual : ℚ := 0
  zenith_angle : ℚ := 0
  temperature : ℚ := 0
  humidity : ℤ := 0
  precipitation_prob : ℤ := 0
  wind_speed : ℚ := 0
  deriving DecidableEq

/-- `AstroConditions._calculate_astro_score`: start at 100, subtract the
cloud penalty (`totalcloud * 0.5`), the capped seeing penalty (when
`seeing_arcsec > 1.0`), the capped high-jet-stream penalty (when
`jetstream_speed > 35`) or the flat low-jet-stream penalty (when
`< 5`), the capped moonlight penalty (only when `zenith_angle > 90`
and `moonlight_actual > 30`), and the capped precipitation penalty
(when `precipitation_prob > 30`); finally `max(0, min(100, int(score)))`. -/
def calculate_astro_score (c : AstroConditions) : ℤ :=
  let s1 : ℚ := 100 - (c.totalcloud : ℚ) * (1/2)
  let s2 : ℚ := if 1 < c.seeing_arcsec then s1 - min 30 ((c.seeing_arcsec - 1) * 15) else s1
  let s3 : ℚ :=
    if 35 < c.jetstream_speed then s2 - min 10 ((c.jetstream_speed - 35) * (1/2))
    else if c.jetstream_speed < 5 then s2 - 3
    else s2
  let s4 : ℚ :=
    if 90 < c.zenith_angle then
      if 30 < c.moonlight_actual then s3 - min 10 (c.moonlight_actual * (15/100)) else s3
    else s3
  let s5 : ℚ :=
    if 30 < c.precipitation_prob then s4 - min 10 ((c.precipitation_prob : ℚ) * (1/10)) else s4
  max 0 (min 100 (intTrunc s5))

/-- `AstroConditions._classify_quality` as a function of the score. -/
def classify_quality (s : ℤ) : String :=
  if 85 ≤ s then "EXCELLENT"
  else if 70 ≤ s then "GOOD"
  else if 50 ≤ s then "AVERAGE"
  else if 30 ≤ s then "POOR"
  else "BAD"

/-- The derived `quality_class` field of a sample. -/
def quality_class (c : AstroConditions) : String :=
  classify_quality (calculate_astro_score c)

/-- `AstroConditions.is_night`: sun below the horizon. -/
def is_night (c : AstroConditions) : Bool := 90 < c.zenith_angle

/-- `AstroConditions.is_astronomical_night`: sun more than 18 degrees
below the horizon. -/
def is_astronomical_night (c : AstroConditions) : Bool := 108 < c.zenith_angle

/-- The per-sample validity test of `get_best_windows`, exactly as in the
source: `is_valid = astro_score >= min_score`, then, when `only_night`
is set, conjoined with `is_astronomical_night()`. -/
def window_is_valid (ms : ℤ) (onb : Bool) (c : AstroConditions) : Bool :=
  let v : Bool := ms ≤ calculate_astro_score c
  if onb then v && is_astronomical_night c else v

/-- A sample whose inputs sit at the ideal baseline of spec section 8,
with the given total cloud cover. -/
def baselineSample (cloud : ℤ) : AstroConditions :=
  { timestamp := 0, seeing_arcsec := 1, seeing_index1 := 1, seeing_index2 := 1,
    jetstream_speed := 20, totalcloud := cloud }

/-- The worst-case stacked-penalty sample of spec section 8. -/
def worstSample : AstroConditions :=
  { timestamp := 0, seeing_arcsec := 10, seeing_index1 := 5, seeing_index2 := 5,
    jetstream_speed := 100, totalcloud := 100, moonlight_actual := 100,
    zenith_angle := 150, precipitation_prob := 100 }

lemma baselineSample_score (n : ℤ) (h0 : 0 ≤ n) (h1 : n ≤ 100) :
    calculate_astro_score (baselineSample n) = 100 - (n + 1) / 2 := by
  have hq : (100 : ℚ) - (n : ℚ) * (1/2) = ((200 - n : ℤ) : ℚ) / ((2 : ℕ) : ℚ) := by
    push_cast
    ring
  have hnn : (0 : ℚ) ≤ 100 - (n : ℚ) * (1/2) := by
    have : (n : ℚ) ≤ 100 := by exact_mod_cast h1
    nlinarith
  have hfloor : ⌊(100 : ℚ) - (n : ℚ) * (1/2)⌋ = (200 - n) / 2 := by
    rw [hq, Rat.floor_intCast_div_natCast]
    norm_num
  simp only [calculate_astro_score, baselineSample]
  norm_num
  rw [intTrunc, if_pos hnn, hfloor]
  omega

/-- C1: at the ideal baseline the score is `100 - round(cloud * 0.5)`
(rounding half up), and it is monotonically non-increasing in the
cloud percentage. -/
theorem C1_cloud_baseline (cloud : ℤ) (h0 : 0 ≤ cloud) (h1 : cloud ≤ 100) :
    calculate_astro_score (baselineSample cloud) = 100 - round ((cloud : ℚ) * (1/2)) ∧
    ∀ cloud2 : ℤ, cloud ≤ cloud2 → cloud2 ≤ 100 →
      calculate_astro_score (baselineSample cloud2) ≤
        calculate_astro_score (baselineSample cloud) := by
  have hround : round ((cloud : ℚ) * (1/2)) = (cloud + 1) / 2 := by
    rw [round_eq]
    have hq : (cloud : ℚ) * (1/2) + 1/2 = ((cloud + 1 : ℤ) : ℚ) / ((2 : ℕ) : ℚ) := by
      push_cast
      ring
    rw [hq, Rat.floor_intCast_div_natCast]
    norm_num
  constructor
  · rw [baselineSample_score cloud h0 h1, hround]
  · intro c2 hle h2
    rw [baselineSample_score cloud h0 h1, baselineSample_score c2 (le_trans h0 hle) h2]
    omega

/-- Witness for C1 at cloud = 41. -/
theorem C1_cloud_baseline_witness :
    calculate_astro_score (baselineSample 41) = 100 - round ((41 : ℚ) * (1/2)) ∧
    ∀ cloud2 : ℤ, 41 ≤ cloud2 → cloud2 ≤ 100 →
      calculate_astro_score (baselineSample cloud2) ≤
        calculate_astro_score (baselineSample 41) :=
  C1_cloud_baseline 41 (by norm_num) (by norm_num)

/-- C2: the astro score is always an integer in [0, 100]; at the
worst-case stacked-penalty sample it clamps to 0 rather than going
negative. -/
theorem C2_score_bounds :
    (∀ c : AstroConditions,
      0 ≤ calculate_astro_score c ∧ calculate_astro_score c ≤ 100) ∧
    calculate_astro_score worstSample = 0 := by
  constructor
  · intro c
    simp only [calculate_astro_score]
    omega
  · have hceil : ⌈(-10 : ℚ)⌉ = -10 := by
      rw [show (-10 : ℚ) = ((-10 : ℤ) : ℚ) by norm_num, Int.ceil_intCast]
    simp only [calculate_astro_score, worstSample]
    norm_num [intTrunc, hceil]

/-- C3: `quality_class` is a pure function of `astro_score`, with bands
inclusive on the lower bound: ≥85 EXCELLENT, 70..84 GOOD, 50..69
AVERAGE, 30..49 POOR, ≤29 BAD. -/
theorem C3_quality_bands :
    (∀ c : AstroConditions, quality_class c = classify_quality (calculate_astro_score c)) ∧
    ∀ s : ℤ,
      (85 ≤ s → classify_quality s = "EXCELLENT") ∧
      (70 ≤ s → s ≤ 84 → classify_quality s = "GOOD") ∧
      (50 ≤ s → s ≤ 69 → classify_quality s = "AVERAGE") ∧
      (30 ≤ s → s ≤ 49 → classify_quality s = "POOR") ∧
      (s ≤ 29 → classify_quality s = "BAD") := by
  constructor
  · intro c
    rfl
  · intro s
    refine ⟨?_, ?_, ?_, ?_, ?_⟩ <;>
      · intros
        simp only [classify_quality]
        split_ifs <;> first | rfl | (exfalso; omega)

/-- Witness for C3 at all eight boundary scores named by the claim. -/
theorem C3_quality_bands_witness :
    classify_quality 85 = "EXCELLENT" ∧ classify_quality 84 = "GOOD" ∧
    classify_quality 70 = "GOOD" ∧ classify_quality 69 = "AVERAGE" ∧
    classify_quality 50 = "AVERAGE" ∧ classify_quality 49 = "POOR" ∧
    classify_quality 30 = "POOR" ∧ classify_quality 29 = "BAD" :=
  ⟨(C3_quality_bands.2 85).1 (by norm_num),
   (C3_quality_bands.2 84).2.1 (by norm_num) (by norm_num),
   (C3_quality_bands.2 70).2.1 (by norm_num) (by norm_num),
   (C3_quality_bands.2 69).2.2.1 (by norm_num) (by norm_num),
   (C3_quality_bands.2 50).2.2.1 (by norm_num) (by norm_num),
   (C3_quality_bands.2 49).2.2.2.1 (by norm_num) (by norm_num),
   (C3_quality_bands.2 30).2.2.2.1 (by norm_num) (by norm_num),
   (C3_quality_bands.2 29).2.2.2.2 (by norm_num)⟩

/-- C8: a sample qualifies iff its score reaches `min_score` and, when
`only_night` is set, it is in astronomical night (zenith angle
strictly greater than 108 degrees). -/
theorem C8_validity_predicate (ms : ℤ) (onb : Bool) (c : AstroConditions) :
    window_is_valid ms onb c = true ↔
      (ms ≤ calculate_astro_score c ∧ (onb = false ∨ 108 < c.zenith_angle)) := by
  cases onb <;> simp [window_is_valid, is_astronomical_night]

/-- C10: the score and quality class read only the six scoring inputs;
any two samples agreeing on them get identical results regardless of
every other field. -/
theorem C10_score_noninterference (c1 c2 : AstroConditions)
    (hcloud : c1.totalcloud = c2.totalcloud)
    (hseeing : c1.seeing_arcsec = c2.seeing_arcsec)
    (hjet : c1.jetstream_speed = c2.jetstream_speed)
    (hmoon : c1.moonlight_actual = c2.moonlight_actual)
    (hzen : c1.zenith_angle = c2.zenith_angle)
    (hprecip : c1.precipitation_prob = c2.precipitation_prob) :
    calculate_astro_score c1 = calculate_astro_score c2 ∧
    quality_class c1 = quality_class c2 := by
  have hs : calculate_astro_score c1 = calculate_astro_score c2 := by
    simp only [calculate_astro_score, hcloud, hseeing, hjet, hmoon, hzen, hprecip]
  exact ⟨hs, by simp only [quality_class, hs]⟩

/-- Witness for C10: two samples sharing the six scoring inputs but
differing in temperature, humidity, wind, visibility, fog, cloud
layers, sky brightness, seeing indices and timestamp. -/
theorem C10_score_noninterference_witness :
    calculate_astro_score (baselineSample 40) =
      calculate_astro_score
        { timestamp := 7, seeing_arcsec := 1, seeing_index1 := 5, seeing_index2 := 4,
          jetstream_speed := 20, totalcloud := 40, lowclouds := 10, midclouds := 20,
          highclouds := 30, visibility := 9000, fog_probability := 55,
          nightsky_brightness_actual := 3, nightsky_brightness_clearsky := 4,
          temperature := -5, humidity := 93, wind_speed := 22 } ∧
    quality_class (baselineSample 40) =
      quality_class
        { timestamp := 7, seeing_arcsec := 1, seeing_index1 := 5, seeing_index2 := 4,
          jetstream_speed := 20, totalcloud := 40, lowclouds := 10, midclouds := 20,
          highclouds := 30, visibility := 9000, fog_probability := 55,
          nightsky_brightness_actual := 3, nightsky_brightness_clearsky := 4,
          temperature := -5, humidity := 93, wind_speed := 22 } :=
  C10_score_noninterference _ _ rfl rfl rfl rfl rfl rfl

/-- The accumulator `current_window` of `get_best_windows` while a run is
open: start/end timestamps, the samples collected so far, and their
scores (the dict keys `start`, `end`, `conditions`, `scores`). -/
structure OpenWindow where
  start : ℤ
  stop : ℤ
  conds : List AstroConditions
  scores : List ℤ
  deriving DecidableEq

/-- An emitted observation window: the accumulator fields plus the
aggregates added when the window is closed (`hours`, `avg_score`,
`min_score`, `avg_seeing`, `avg_clouds`). -/
structure ObservationWindow where
  start : ℤ
  stop : ℤ
  conds : List AstroConditions
  scores : List ℤ
  hours : ℕ
  avg_score : ℚ
  min_score : ℤ
  avg_seeing : ℚ
  avg_clouds : ℚ
  deriving DecidableEq

/-- Opening a fresh window at a qualifying sample. -/
def mkOpen (c : AstroConditions) : OpenWindow :=
  ⟨c.timestamp, c.timestamp, [c], [calculate_astro_score c]⟩

/-- Extending the open window by one more qualifying sample: `end` is
updated, the sample and its score are appended. -/
def extendOpen (w : OpenWindow) (c : AstroConditions) : OpenWindow :=
  ⟨w.start, c.timestamp, w.conds ++ [c], w.scores ++ [calculate_astro_score c]⟩

/-- One qualifying sample acting on the scan state: create the window if
absent, extend it otherwise. -/
def pushSample : Option OpenWindow → AstroConditions → OpenWindow
  | none, c => mkOpen c
  | some w, c => extendOpen w c

/-- Python `min` over a list of scores; the windowing code only ever
applies it to the nonempty score list of an open window. -/
def listMin : List ℤ → ℤ
  | [] => 0
  | x :: xs => xs.foldl min x

/-- Closing a window: compute `hours` and the four aggregates exactly as
in the source. -/
def closeWindow (w : OpenWindow) : ObservationWindow :=
  { start := w.start, stop := w.stop, conds := w.conds, scores := w.scores,
    hours := w.conds.length,
    avg_score := (w.scores.map (fun s => (s : ℚ))).sum / (w.conds.length : ℚ),
    min_score := listMin w.scores,
    avg_seeing := (w.conds.map (fun c => c.seeing_arcsec)).sum / (w.conds.length : ℚ),
    avg_clouds := (w.conds.map (fun c => (c.totalcloud : ℚ))).sum / (w.conds.length : ℚ) }

/-- The close-and-emit-if-long-enough step: applied when a non-qualifying
sample ends the current window, and once more after the scan. -/
def flushWindow (mh : ℕ) (cw : Option OpenWindow) (ws : List ObservationWindow) :
    List ObservationWindow :=
  match cw with
  | none => ws
  | some w => if mh ≤ w.conds.length then ws ++ [closeWindow w] else ws

/-- The single forward scan of `get_best_windows`: the loop over
`conditions` with scan state `current_window` and output accumulator
`windows`, followed by the end-of-input flush. -/
def windowScan (ms : ℤ) (mh : ℕ) (onb : Bool) :
    List AstroConditions → Option OpenWindow → List ObservationWindow →
      List ObservationWindow
  | [], cw, ws => flushWindow mh cw ws
  | c :: rest, cw, ws =>
    if window_is_valid ms onb c then
      windowScan ms mh onb rest (some (pushSample cw c)) ws
    else
      windowScan ms mh onb rest none (flushWindow mh cw ws)

/-- Insertion step of the stable descending sort: `w` goes in front of
the first element whose `avg_score` does not exceed it, so earlier
emissions with equal `avg_score` stay in front. -/
def insertByAvgDesc (w : ObservationWindow) :
    List ObservationWindow → List ObservationWindow
  | [] => [w]
  | x :: xs => if x.avg_score ≤ w.avg_score then w :: x :: xs else x :: insertByAvgDesc w xs

/-- `windows.sort(key=lambda w: w["avg_score"], reverse=True)`: Python
list.sort is a stable sort, which is uniquely determined by the key
order; this insertion sort realises it (sortedness and stability are
proved below for claim C7). -/
def sortByAvgDesc (l : List ObservationWindow) : List ObservationWindow :=
  l.foldr insertByAvgDesc []

/-- `MeteoblueAstroClient.get_best_windows`. -/
def get_best_windows (conditions : List AstroConditions) (ms : ℤ) (mh : ℕ)
    (onb : Bool) : List ObservationWindow :=
  sortByAvgDesc (windowScan ms mh onb conditions none [])

/-- The maximal runs of consecutive elements satisfying `p`, in input
order; a reference decomposition used to characterise the scan. -/
def splitRuns {α : Type _} (p : α → Bool) : List α → List (List α)
  | [] => []
  | [a] => if p a then [[a]] else []
  | a :: b :: l =>
    let rest := splitRuns p (b :: l)
    if p a then
      if p b then (a :: rest.headD []) :: rest.tail
      else [a] :: rest
    else rest

/-- Maximal runs when a run is already open with collected elements
`acc` (in order). -/
def runsWithAcc {α : Type _} (p : α → Bool) : List α → List α → List (List α)
  | acc, [] => [acc]
  | acc, a :: l => if p a then runsWithAcc p (acc ++ [a]) l else acc :: splitRuns p l

/-- The open window corresponding to a nonempty run of samples. -/
def openOf : List AstroConditions → OpenWindow
  | [] => ⟨0, 0, [], []⟩
  | c :: cs => cs.foldl extendOpen (mkOpen c)

/-- The emitted window corresponding to a nonempty run of samples. -/
def runWindow (r : List AstroConditions) : ObservationWindow :=
  closeWindow (openOf r)

lemma splitRuns_invalid {α : Type _} (p : α → Bool) (a : α) (l : List α)
    (h : p a = false) : splitRuns p (a :: l) = splitRuns p l := by
  cases l <;> simp [splitRuns, h]

lemma splitRuns_valid {α : Type _} (p : α → Bool) (a : α) (l : List α)
    (h : p a = true) :
    splitRuns p (a :: l) = (a :: l.takeWhile p) :: splitRuns p (l.dropWhile p) := by
  induction l generalizing a with
  | nil => simp [splitRuns, h]
  | cons b l ih =>
    cases hb : p b with
    | true =>
      have : splitRuns p (a :: b :: l) =
          (a :: (splitRuns p (b :: l)).headD []) :: (splitRuns p (b :: l)).tail := by
        simp [splitRuns, h, hb]
      rw [this, ih b hb]
      simp [List.takeWhile_cons, List.dropWhile_cons, hb]
    | false =>
      have : splitRuns p (a :: b :: l) = [a] :: splitRuns p (b :: l) := by
        simp [splitRuns, h, hb]
      rw [this]
      simp [List.takeWhile_cons, List.dropWhile_cons, hb]

lemma runsWithAcc_eq {α : Type _} (p : α → Bool) (acc l : List α) :
    runsWithAcc p acc l = (acc ++ l.takeWhile p) :: splitRuns p (l.dropWhile p) := by
  induction l generalizing acc with
  | nil => simp [runsWithAcc, splitRuns]
  | cons a l ih =>
    cases ha : p a with
    | true => simp [runsWithAcc, ha, ih, List.takeWhile_cons, List.dropWhile_cons]
    | false =>
      simp [runsWithAcc, ha, List.takeWhile_cons, List.dropWhile_cons,
        splitRuns_invalid p a l ha]

lemma splitRuns_cons_valid_acc {α : Type _} (p : α → Bool) (a : α) (l : List α)
    (h : p a = true) : splitRuns p (a :: l) = runsWithAcc p [a] l := by
  rw [splitRuns_valid p a l h, runsWithAcc_eq]
  simp

lemma foldl_extendOpen_conds (cs : List AstroConditions) :
    ∀ w : OpenWindow, (cs.foldl extendOpen w).conds = w.conds ++ cs := by
  induction cs with
  | nil => simp
  | cons d cs ih =>
    intro w
    simp [List.foldl_cons, ih, extendOpen]

lemma foldl_extendOpen_scores (cs : List AstroConditions) :
    ∀ w : OpenWindow,
      (cs.foldl extendOpen w).scores = w.scores ++ cs.map calculate_astro_score := by
  induction cs with
  | nil => simp
  | cons d cs ih =>
    intro w
    simp [List.foldl_cons, ih, extendOpen]

lemma foldl_extendOpen_start (cs : List AstroConditions) :
    ∀ w : OpenWindow, (cs.foldl extendOpen w).start = w.start := by
  induction cs with
  | nil => simp
  | cons d cs ih =>
    intro w
    simp [List.foldl_cons, ih, extendOpen]

lemma foldl_extendOpen_stop (cs : List AstroConditions) :
    ∀ w : OpenWindow,
      (cs.foldl extendOpen w).stop =
        ((cs.getLast?).map (fun c => c.timestamp)).getD w.stop := by
  induction cs with
  | nil => simp
  | cons d cs ih =>
    intro w
    cases cs with
    | nil => simp [extendOpen]
    | cons e cs' =>
      rw [List.foldl_cons, ih, List.getLast?_cons_cons]
      cases hlast : (e :: cs').getLast? with
      | none => exact absurd (List.getLast?_eq_none_iff.mp hlast) (by simp)
      | some x => simp [hlast]

lemma openOf_conds (r : List AstroConditions) : (openOf r).conds = r := by
  cases r with
  | nil => rfl
  | cons c cs => simp [openOf, foldl_extendOpen_conds, mkOpen]

lemma openOf_scores (r : List AstroConditions) :
    (openOf r).scores = r.map calculate_astro_score := by
  cases r with
  | nil => rfl
  | cons c cs => simp [openOf, foldl_extendOpen_scores, mkOpen]

lemma openOf_start (c : AstroConditions) (cs : List AstroConditions) :
    (openOf (c :: cs)).start = c.timestamp := by
  simp [openOf, foldl_extendOpen_start, mkOpen]

lemma openOf_stop (c : AstroConditions) (cs : List AstroConditions) :
    (openOf (c :: cs)).stop = ((c :: cs).getLast (by simp)).timestamp := by
  rw [openOf, foldl_extendOpen_stop]
  cases hcs : cs.getLast? with
  | none =>
    have : cs = [] := List.getLast?_eq_none_iff.mp hcs
    subst this
    simp [mkOpen]
  | some d =>
    have h1 : (c :: cs).getLast? = some d := by
      cases cs with
      | nil => simp at hcs
      | cons e cs' => rw [List.getLast?_cons_cons]; exact hcs
    have h2 : (c :: cs).getLast? = some ((c :: cs).getLast (by simp)) :=
      List.getLast?_eq_getLast _ _
    rw [h1] at h2
    injection h2 with h3
    simp [h3]

lemma extendOpen_openOf (acc : List AstroConditions) (c : AstroConditions)
    (h : acc ≠ []) : extendOpen (openOf acc) c = openOf (acc ++ [c]) := by
  cases acc with
  | nil => exact absurd rfl h
  | cons a as => simp [openOf, List.foldl_append]

lemma flushWindow_append (mh : ℕ) (cw : Option OpenWindow)
    (ws : List ObservationWindow) :
    flushWindow mh cw ws = ws ++ flushWindow mh cw [] := by
  cases cw with
  | none => simp [flushWindow]
  | some w =>
    simp only [flushWindow]
    split <;> simp

lemma windowScan_append (ms : ℤ) (mh : ℕ) (onb : Bool) :
    ∀ (conds : List AstroConditions) (cw : Option OpenWindow)
      (ws : List ObservationWindow),
      windowScan ms mh onb conds cw ws = ws ++ windowScan ms mh onb conds cw [] := by
  intro conds
  induction conds with
  | nil =>
    intro cw ws
    simp [windowScan, flushWindow_append mh cw ws]
  | cons c rest ih =>
    intro cw ws
    simp only [windowScan]
    split
    · rw [ih (some (pushSample cw c)) ws]
    · rw [ih none (flushWindow mh cw ws), flushWindow_append mh cw ws,
        ih none (flushWindow mh cw []), List.append_assoc]

lemma windowScan_characterization (ms : ℤ) (mh : ℕ) (onb : Bool) :
    ∀ conds : List AstroConditions,
      (windowScan ms mh onb conds none [] =
        ((splitRuns (window_is_valid ms onb) conds).filter
          (fun r => decide (mh ≤ r.length))).map runWindow) ∧
      (∀ acc : List AstroConditions, acc ≠ [] →
        windowScan ms mh onb conds (some (openOf acc)) [] =
          ((runsWithAcc (window_is_valid ms onb) acc conds).filter
            (fun r => decide (mh ≤ r.length))).map runWindow) := by
  intro conds
  induction conds with
  | nil =>
    constructor
    · rfl
    · intro acc hacc
      show flushWindow mh (some (openOf acc)) [] = _
      simp only [flushWindow, runsWithAcc, List.filter, openOf_conds]
      by_cases h : mh ≤ acc.length
      · simp [h, runWindow]
      · simp [h]
  | cons c rest ih =>
    constructor
    · cases hv : window_is_valid ms onb c with
      | true =>
        have h1 : windowScan ms mh onb (c :: rest) none [] =
            windowScan ms mh onb rest (some (openOf [c])) [] := by
          simp [windowScan, hv, pushSample, openOf]
        rw [h1, ih.2 [c] (by simp), splitRuns_cons_valid_acc _ c rest hv]
      | false =>
        have h1 : windowScan ms mh onb (c :: rest) none [] =
            windowScan ms mh onb rest none [] := by
          simp [windowScan, hv, flushWindow]
        rw [h1, ih.1, splitRuns_invalid _ c rest hv]
    · intro acc hacc
      cases hv : window_is_valid ms onb c with
      | true =>
        have h1 : windowScan ms mh onb (c :: rest) (some (openOf acc)) [] =
            windowScan ms mh onb rest (some (openOf (acc ++ [c]))) [] := by
          simp [windowScan, hv, pushSample, extendOpen_openOf acc c hacc]
        rw [h1, ih.2 (acc ++ [c]) (by simp)]
        simp [runsWithAcc, hv]
      | false =>
        have h1 : windowScan ms mh onb (c :: rest) (some (openOf acc)) [] =
            flushWindow mh (some (openOf acc)) [] ++
              windowScan ms mh onb rest none [] := by
          have h2 : windowScan ms mh onb (c :: rest) (some (openOf acc)) [] =
              windowScan ms mh onb rest none (flushWindow mh (some (openOf acc)) []) := by
            simp [windowScan, hv]
          rw [h2]
          exact windowScan_append ms mh onb rest none _
        rw [h1, ih.1]
        simp only [flushWindow, runsWithAcc, hv, openOf_conds, Bool.false_eq_true,
          if_false, List.filter]
        by_cases h : mh ≤ acc.length
        · simp [h, runWindow]
        · simp [h]

lemma windowScan_eq (ms : ℤ) (mh : ℕ) (onb : Bool) (conds : List AstroConditions) :
    windowScan ms mh onb conds none [] =
      ((splitRuns (window_is_valid ms onb) conds).filter
        (fun r => decide (mh ≤ r.length))).map runWindow :=
  (windowScan_characterization ms mh onb conds).1

lemma splitRuns_sound {α : Type _} (p : α → Bool) :
    ∀ (n : ℕ) (l : List α), l.length ≤ n → ∀ r ∈ splitRuns p l,
      r ≠ [] ∧ (∀ x ∈ r, p x = true) ∧ ∃ s t, l = s ++ r ++ t := by
  intro n
  induction n with
  | zero =>
    intro l hl r hr
    rw [List.length_eq_zero.mp (Nat.le_zero.mp hl)] at hr
    simp [splitRuns] at hr
  | succ n ih =>
    intro l hl r hr
    cases l with
    | nil => simp [splitRuns] at hr
    | cons a l' =>
      cases ha : p a with
      | false =>
        rw [splitRuns_invalid p a l' ha] at hr
        obtain ⟨h1, h2, s, t, hst⟩ := ih l' (by simp at hl; omega) r hr
        exact ⟨h1, h2, a :: s, t, by simp [hst]⟩
      | true =>
        rw [splitRuns_valid p a l' ha] at hr
        rcases List.mem_cons.mp hr with rfl | hr'
        · refine ⟨by simp, ?_, [], l'.dropWhile p, ?_⟩
          · intro x hx
            rcases List.mem_cons.mp hx with rfl | hx'
            · exact ha
            · exact List.mem_takeWhile_imp hx'
          · simp
        · have hlen : (l'.dropWhile p).length ≤ n := by
            have h3 := (List.dropWhile_sublist (l := l') p).length_le
            simp at hl
            omega
          obtain ⟨h1, h2, s, t, hst⟩ := ih (l'.dropWhile p) hlen r hr'
          refine ⟨h1, h2, a :: (l'.takeWhile p ++ s), t, ?_⟩
          have h4 : l'.takeWhile p ++ l'.dropWhile p = l' :=
            List.takeWhile_append_dropWhile p l'
          calc a :: l' = a :: (l'.takeWhile p ++ l'.dropWhile p) := by rw [h4]
          _ = a :: (l'.takeWhile p ++ (s ++ r ++ t)) := by rw [hst]
          _ = (a :: (l'.takeWhile p ++ s)) ++ r ++ t := by simp

lemma splitRuns_mem_mem {α : Type _} (p : α → Bool) (l : List α) (r : List α)
    (hr : r ∈ splitRuns p l) (x : α) (hx : x ∈ r) : x ∈ l := by
  obtain ⟨_, _, s, t, hst⟩ := splitRuns_sound p l.length l le_rfl r hr
  rw [hst]
  simp [hx]

lemma splitRuns_pairwise {α : Type _} (p : α → Bool) {R : α → α → Prop} :
    ∀ (n : ℕ) (l : List α), l.length ≤ n → l.Pairwise R →
      (splitRuns p l).Pairwise (fun r1 r2 => ∀ x ∈ r1, ∀ y ∈ r2, R x y) := by
  intro n
  induction n with
  | zero =>
    intro l hl _
    rw [List.length_eq_zero.mp (Nat.le_zero.mp hl)]
    simp [splitRuns]
  | succ n ih =>
    intro l hl hR
    cases l with
    | nil => simp [splitRuns]
    | cons a l' =>
      have hR' := List.pairwise_cons.mp hR
      cases ha : p a with
      | false =>
        rw [splitRuns_invalid p a l' ha]
        exact ih l' (by simp at hl; omega) hR'.2
      | true =>
        rw [splitRuns_valid p a l' ha]
        have hsplit : l'.takeWhile p ++ l'.dropWhile p = l' :=
          List.takeWhile_append_dropWhile p l'
        have hPl' : (l'.takeWhile p ++ l'.dropWhile p).Pairwise R := by
          rw [hsplit]; exact hR'.2
        have hparts := List.pairwise_append.mp hPl'
        have hlen : (l'.dropWhile p).length ≤ n := by
          have h3 := (List.dropWhile_sublist (l := l') p).length_le
          simp at hl
          omega
        refine List.pairwise_cons.mpr ⟨?_, ih (l'.dropWhile p) hlen hparts.2.1⟩
        intro r2 hr2 x hx y hy
        have hy_mem : y ∈ l'.dropWhile p := splitRuns_mem_mem p _ r2 hr2 y hy
        rcases List.mem_cons.mp hx with rfl | hx'
        · exact hR'.1 y ((List.dropWhile_sublist (l := l') p).mem hy_mem)
        · exact hparts.2.2 x hx' y hy_mem

lemma takeWhile_of_all {α : Type _} (p : α → Bool) :
    ∀ l : List α, (∀ x ∈ l, p x = true) → l.takeWhile p = l := by
  intro l h
  induction l with
  | nil => rfl
  | cons a l ih =>
    rw [List.takeWhile_cons, h a (by simp)]
    simp [ih fun x hx => h x (by simp [hx])]

lemma dropWhile_of_all {α : Type _} (p : α → Bool) :
    ∀ l : List α, (∀ x ∈ l, p x = true) → l.dropWhile p = [] := by
  intro l h
  induction l with
  | nil => rfl
  | cons a l ih =>
    rw [List.dropWhile_cons, h a (by simp)]
    simp [ih fun x hx => h x (by simp [hx])]

lemma splitRuns_all_valid {α : Type _} (p : α → Bool) (r : List α) (hne : r ≠ [])
    (hval : ∀ x ∈ r, p x = true) : splitRuns p r = [r] := by
  cases r with
  | nil => exact absurd rfl hne
  | cons a as =>
    rw [splitRuns_valid p a as (hval a (by simp)),
      takeWhile_of_all p as fun x hx => hval x (by simp [hx]),
      dropWhile_of_all p as fun x hx => hval x (by simp [hx])]
    rfl

lemma splitRuns_all_invalid {α : Type _} (p : α → Bool) :
    ∀ l : List α, (∀ x ∈ l, p x = false) → splitRuns p l = [] := by
  intro l h
  induction l with
  | nil => rfl
  | cons a l ih =>
    rw [splitRuns_invalid p a l (h a (by simp))]
    exact ih fun x hx => h x (by simp [hx])

lemma runWindow_hours (r : List AstroConditions) : (runWindow r).hours = r.length := by
  simp [runWindow, closeWindow, openOf_conds]

lemma runWindow_start (c : AstroConditions) (cs : List AstroConditions) :
    (runWindow (c :: cs)).start = c.timestamp := by
  simp [runWindow, closeWindow, openOf_start]

lemma runWindow_stop (c : AstroConditions) (cs : List AstroConditions) :
    (runWindow (c :: cs)).stop = ((c :: cs).getLast (by simp)).timestamp := by
  simp [runWindow, closeWindow, openOf_stop]

lemma mem_insertByAvgDesc (x w : ObservationWindow) :
    ∀ l : List ObservationWindow, x ∈ insertByAvgDesc w l ↔ x = w ∨ x ∈ l := by
  intro l
  induction l with
  | nil => simp [insertByAvgDesc]
  | cons y ys ih =>
    simp only [insertByAvgDesc]
    split
    · simp
    · simp only [List.mem_cons, ih]
      tauto

lemma mem_sortByAvgDesc (x : ObservationWindow) :
    ∀ l : List ObservationWindow, x ∈ sortByAvgDesc l ↔ x ∈ l := by
  intro l
  induction l with
  | nil => simp [sortByAvgDesc]
  | cons a l ih =>
    show x ∈ insertByAvgDesc a (sortByAvgDesc l) ↔ _
    rw [mem_insertByAvgDesc, ih]
    simp [eq_comm]

/-- A sample with given timestamp, cloud cover and seeing, all other
scoring inputs ideal; used for the concrete window-finder examples of
spec section 8. -/
def demoSample (t cloud : ℤ) (seeing : ℚ) : AstroConditions :=
  { timestamp := t, seeing_arcsec := seeing, seeing_index1 := 1, seeing_index2 := 1,
    jetstream_speed := 20, totalcloud := cloud }

/-- The 5-sample input of spec section 8, with scores 80, 75, 40, 90, 95. -/
def demoConds : List AstroConditions :=
  [demoSample 0 40 1, demoSample 1 50 1, demoSample 2 100 (5/3), demoSample 3 20 1,
   demoSample 4 10 1]

lemma demoSample_score_one (t cloud : ℤ) (h0 : 0 ≤ cloud) (h1 : cloud ≤ 100) :
    calculate_astro_score (demoSample t cloud 1) = 100 - (cloud + 1) / 2 := by
  have hkey : calculate_astro_score (demoSample t cloud 1) =
      calculate_astro_score (baselineSample cloud) := by
    simp only [calculate_astro_score, demoSample, baselineSample]
  rw [hkey]
  exact baselineSample_score cloud h0 h1

lemma demo_score_40 (t : ℤ) : calculate_astro_score (demoSample t 40 1) = 80 := by
  rw [demoSample_score_one t 40 (by norm_num) (by norm_num)]
  decide

lemma demo_score_50 (t : ℤ) : calculate_astro_score (demoSample t 50 1) = 75 := by
  rw [demoSample_score_one t 50 (by norm_num) (by norm_num)]
  decide

lemma demo_score_20 (t : ℤ) : calculate_astro_score (demoSample t 20 1) = 90 := by
  rw [demoSample_score_one t 20 (by norm_num) (by norm_num)]
  decide

lemma demo_score_10 (t : ℤ) : calculate_astro_score (demoSample t 10 1) = 95 := by
  rw [demoSample_score_one t 10 (by norm_num) (by norm_num)]
  decide

lemma demo_score_mid (t : ℤ) : calculate_astro_score (demoSample t 100 (5/3)) = 40 := by
  have hfloor : ⌊(40 : ℚ)⌋ = 40 := by norm_num
  simp only [calculate_astro_score, demoSample]
  norm_num [intTrunc]

lemma demo_valid_40 (t : ℤ) : window_is_valid 60 false (demoSample t 40 1) = true := by
  simp [window_is_valid, demo_score_40]

lemma demo_valid_50 (t : ℤ) : window_is_valid 60 false (demoSample t 50 1) = true := by
  simp [window_is_valid, demo_score_50]

lemma demo_valid_20 (t : ℤ) : window_is_valid 60 false (demoSample t 20 1) = true := by
  simp [window_is_valid, demo_score_20]

lemma demo_valid_10 (t : ℤ) : window_is_valid 60 false (demoSample t 10 1) = true := by
  simp [window_is_valid, demo_score_10]

lemma demo_invalid_mid (t : ℤ) :
    window_is_valid 60 false (demoSample t 100 (5/3)) = false := by
  simp [window_is_valid, demo_score_mid]

lemma windowScan_pairwise_stop_start (ms : ℤ) (mh : ℕ) (onb : Bool)
    (conds : List AstroConditions)
    (hts : conds.Pairwise (fun a b => a.timestamp < b.timestamp)) :
    (windowScan ms mh onb conds none []).Pairwise
      (fun w1 w2 => w1.stop < w2.start) := by
  rw [windowScan_eq, List.pairwise_map]
  have base := splitRuns_pairwise (window_is_valid ms onb) conds.length conds le_rfl hts
  have hfil := base.filter (fun r => decide (mh ≤ r.length))
  refine hfil.imp_of_mem ?_
  intro r1 r2 h1 h2 hrel
  have hm1 := List.mem_of_mem_filter h1
  have hm2 := List.mem_of_mem_filter h2
  obtain ⟨hne1, -, -⟩ := splitRuns_sound _ conds.length conds le_rfl r1 hm1
  obtain ⟨hne2, -, -⟩ := splitRuns_sound _ conds.length conds le_rfl r2 hm2
  cases r1 with
  | nil => exact absurd rfl hne1
  | cons c1 cs1 =>
  cases r2 with
  | nil => exact absurd rfl hne2
  | cons c2 cs2 =>
  rw [runWindow_stop, runWindow_start]
  exact hrel _ (List.getLast_mem _) c2 (by simp)

/-- C4: under chronologically increasing timestamps, every emitted window
corresponds to a contiguous all-qualifying run whose length is the
window's `hours`; no non-qualifying sample lies inside `[start, end]`;
distinct windows never overlap; and the result is a deterministic
function of the input and parameters. -/
theorem C4_window_invariants (conds : List AstroConditions) (ms : ℤ) (mh : ℕ)
    (onb : Bool)
    (hts : conds.Pairwise (fun a b => a.timestamp < b.timestamp)) :
    (∀ w ∈ get_best_windows conds ms mh onb,
      (∃ s r t, conds = s ++ r ++ t ∧ r ≠ [] ∧
        (∀ x ∈ r, window_is_valid ms onb x = true) ∧ w.hours = r.length) ∧
      (∀ c ∈ conds, window_is_valid ms onb c = false →
        ¬(w.start ≤ c.timestamp ∧ c.timestamp ≤ w.stop))) ∧
    (∀ w1 ∈ get_best_windows conds ms mh onb,
      ∀ w2 ∈ get_best_windows conds ms mh onb,
        w1 ≠ w2 → w1.stop < w2.start ∨ w2.stop < w1.start) ∧
    get_best_windows conds ms mh onb = get_best_windows conds ms mh onb := by
  have hmem : ∀ w ∈ get_best_windows conds ms mh onb,
      ∃ r, r ∈ splitRuns (window_is_valid ms onb) conds ∧ mh ≤ r.length ∧
        w = runWindow r := by
    intro w hw
    rw [get_best_windows, mem_sortByAvgDesc, windowScan_eq] at hw
    obtain ⟨r, hr, heq⟩ := List.mem_map.mp hw
    have hf := List.mem_filter.mp hr
    exact ⟨r, hf.1, by simpa using hf.2, heq.symm⟩
  refine ⟨?_, ?_, rfl⟩
  · intro w hw
    obtain ⟨r, hrmem, hrlen, rfl⟩ := hmem w hw
    obtain ⟨hne, hval, s, t, hst⟩ :=
      splitRuns_sound _ conds.length conds le_rfl r hrmem
    refine ⟨⟨s, r, t, hst, hne, hval, runWindow_hours r⟩, ?_⟩
    intro c hc hcinv hbet
    cases r with
    | nil => exact hne rfl
    | cons rh rt =>
    obtain ⟨hb1, hb2⟩ := hbet
    rw [runWindow_start] at hb1
    rw [runWindow_stop] at hb2
    rw [hst] at hc hts
    have hparts := List.pairwise_append.mp hts
    have hparts2 := List.pairwise_append.mp hparts.1
    rcases List.mem_append.mp hc with hc12 | hct
    · rcases List.mem_append.mp hc12 with hcs | hcr
      · have := hparts2.2.2 c hcs rh (by simp)
        omega
      · exact absurd (hval c hcr) (by simp [hcinv])
    · have hlast : (rh :: rt).getLast (by simp) ∈ s ++ (rh :: rt) :=
        List.mem_append.mpr (Or.inr (List.getLast_mem _))
      have := hparts.2.2 _ hlast c hct
      omega
  · have hPair := windowScan_pairwise_stop_start ms mh onb conds hts
    have hPair' : (windowScan ms mh onb conds none []).Pairwise
        (fun w1 w2 => w1.stop < w2.start ∨ w2.stop < w1.start) :=
      hPair.imp fun h => Or.inl h
    have hsym : Symmetric (fun w1 w2 : ObservationWindow =>
        w1.stop < w2.start ∨ w2.stop < w1.start) := by
      intro a b h
      rcases h with h | h
      · exact Or.inr h
      · exact Or.inl h
    intro w1 hw1 w2 hw2 hne
    rw [get_best_windows, mem_sortByAvgDesc] at hw1 hw2
    exact hPair'.forall hsym hw1 hw2 hne

/-- Witness for C4 at the demo input. -/
theorem C4_window_invariants_witness :
    demoConds.Pairwise (fun a b => a.timestamp < b.timestamp) ∧
    ((∀ w ∈ get_best_windows demoConds 60 1 false,
      (∃ s r t, demoConds = s ++ r ++ t ∧ r ≠ [] ∧
        (∀ x ∈ r, window_is_valid 60 false x = true) ∧ w.hours = r.length) ∧
      (∀ c ∈ demoConds, window_is_valid 60 false c = false →
        ¬(w.start ≤ c.timestamp ∧ c.timestamp ≤ w.stop))) ∧
    (∀ w1 ∈ get_best_windows demoConds 60 1 false,
      ∀ w2 ∈ get_best_windows demoConds 60 1 false,
        w1 ≠ w2 → w1.stop < w2.start ∨ w2.stop < w1.start) ∧
    get_best_windows demoConds 60 1 false = get_best_windows demoConds 60 1 false) :=
  ⟨by decide, C4_window_invariants demoConds 60 1 false (by decide)⟩

lemma pairwise_insertByAvgDesc (w : ObservationWindow) :
    ∀ l : List ObservationWindow,
      l.Pairwise (fun a b => b.avg_score ≤ a.avg_score) →
      (insertByAvgDesc w l).Pairwise (fun a b => b.avg_score ≤ a.avg_score) := by
  intro l
  induction l with
  | nil =>
    intro _
    simp [insertByAvgDesc]
  | cons x xs ih =>
    intro hP
    have hP' := List.pairwise_cons.mp hP
    simp only [insertByAvgDesc]
    split
    · rename_i hxw
      refine List.pairwise_cons.mpr ⟨?_, hP⟩
      intro y hy
      rcases List.mem_cons.mp hy with rfl | hy'
      · exact hxw
      · exact le_trans (hP'.1 y hy') hxw
    · rename_i hxw
      refine List.pairwise_cons.mpr ⟨?_, ih hP'.2⟩
      intro y hy
      rw [mem_insertByAvgDesc] at hy
      rcases hy with rfl | hy'
      · exact le_of_lt (not_le.mp hxw)
      · exact hP'.1 y hy'

lemma sortByAvgDesc_sorted :
    ∀ l : List ObservationWindow,
      (sortByAvgDesc l).Pairwise (fun a b => b.avg_score ≤ a.avg_score) := by
  intro l
  induction l with
  | nil => simp [sortByAvgDesc]
  | cons a l ih => exact pairwise_insertByAvgDesc a _ ih

lemma filter_insertByAvgDesc (q : ℚ) (w : ObservationWindow) :
    ∀ l : List ObservationWindow,
      (insertByAvgDesc w l).filter (fun v => decide (v.avg_score = q)) =
        if w.avg_score = q then
          w :: l.filter (fun v => decide (v.avg_score = q))
        else l.filter (fun v => decide (v.avg_score = q)) := by
  intro l
  induction l with
  | nil => by_cases h : w.avg_score = q <;> simp [insertByAvgDesc, h]
  | cons x xs ih =>
    simp only [insertByAvgDesc]
    split
    · by_cases h : w.avg_score = q <;> simp [List.filter_cons, h]
    · rename_i hxw
      by_cases hx : x.avg_score = q
      · have hwq : ¬ (w.avg_score = q) := by
          intro hw
          exact hxw (by rw [hw, ← hx])
        simp [List.filter_cons, hx, hwq, ih]
      · by_cases hw : w.avg_score = q <;> simp [List.filter_cons, hx, hw, ih]

lemma filter_sortByAvgDesc (q : ℚ) :
    ∀ l : List ObservationWindow,
      (sortByAvgDesc l).filter (fun v => decide (v.avg_score = q)) =
        l.filter (fun v => decide (v.avg_score = q)) := by
  intro l
  induction l with
  | nil => rfl
  | cons a l ih =>
    show (insertByAvgDesc a (sortByAvgDesc l)).filter _ = _
    rw [filter_insertByAvgDesc, List.filter_cons]
    by_cases h : a.avg_score = q <;> simp [h, ih]

/-- C7: the window finder's output is sorted by `avg_score` descending,
and the sort is stable: for every key, the windows with that
`avg_score` appear exactly as in the emission (chronological) order
produced by the scan. -/
theorem C7_sorted_stable (conds : List AstroConditions) (ms : ℤ) (mh : ℕ)
    (onb : Bool) :
    (get_best_windows conds ms mh onb).Pairwise
      (fun w1 w2 => w2.avg_score ≤ w1.avg_score) ∧
    ∀ q : ℚ,
      (get_best_windows conds ms mh onb).filter
          (fun w => decide (w.avg_score = q)) =
        (windowScan ms mh onb conds none []).filter
          (fun w => decide (w.avg_score = q)) :=
  ⟨sortByAvgDesc_sorted _, fun q => filter_sortByAvgDesc q _⟩

lemma windowScan_append_invalid (ms : ℤ) (mh : ℕ) (onb : Bool)
    (c : AstroConditions) (hc : window_is_valid ms onb c = false) :
    ∀ (conds : List AstroConditions) (cw : Option OpenWindow)
      (ws : List ObservationWindow),
      windowScan ms mh onb (conds ++ [c]) cw ws = windowScan ms mh onb conds cw ws := by
  intro conds
  induction conds with
  | nil =>
    intro cw ws
    simp [windowScan, hc, flushWindow]
  | cons a rest ih =>
    intro cw ws
    simp only [List.cons_append, windowScan]
    split
    · exact ih _ _
    · exact ih _ _

lemma windowScan_all_valid (ms : ℤ) (mh : ℕ) (onb : Bool)
    (r : List AstroConditions) (hne : r ≠ [])
    (hval : ∀ x ∈ r, window_is_valid ms onb x = true) :
    windowScan ms mh onb r none [] =
      if mh ≤ r.length then [runWindow r] else [] := by
  rw [windowScan_eq, splitRuns_all_valid _ r hne hval]
  by_cases h : mh ≤ r.length <;> simp [h]

lemma windowScan_separator (ms : ℤ) (mh : ℕ) (onb : Bool)
    (r : List AstroConditions) (b : AstroConditions)
    (hb : window_is_valid ms onb b = false) (hne : r ≠ [])
    (hval : ∀ x ∈ r, window_is_valid ms onb x = true) :
    ∀ (s : List AstroConditions) (cw : Option OpenWindow),
      windowScan ms mh onb (s ++ b :: r) cw [] =
        windowScan ms mh onb (s ++ [b]) cw [] ++
          (if mh ≤ r.length then [runWindow r] else []) := by
  intro s
  induction s with
  | nil =>
    intro cw
    have h1 : windowScan ms mh onb (b :: r) cw [] =
        windowScan ms mh onb r none (flushWindow mh cw []) := by
      simp [windowScan, hb]
    have h2 : windowScan ms mh onb ([] ++ [b]) cw [] = flushWindow mh cw [] := by
      simp [windowScan, hb, flushWindow]
    rw [List.nil_append, h1, windowScan_append,
      windowScan_all_valid ms mh onb r hne hval, h2]
  | cons a s' ih =>
    intro cw
    simp only [List.cons_append, windowScan]
    split
    · exact ih _
    · simp only [List.append_eq]
      rw [windowScan_append ms mh onb (s' ++ b :: r) none (flushWindow mh cw []),
        ih none,
        windowScan_append ms mh onb (s' ++ [b]) none (flushWindow mh cw []),
        List.append_assoc]

/-- C6: a qualifying run reaching the end of the input is emitted exactly
when it is at least `min_hours` long, with the same close-and-emit
logic as a run closed by a non-qualifying sample: appending one
non-qualifying sample never changes the result, an all-qualifying
input yields exactly its own window when long enough, and a trailing
run after a separator contributes exactly its closed window. -/
theorem C6_trailing_window (ms : ℤ) (mh : ℕ) (onb : Bool) :
    (∀ (conds : List AstroConditions) (c : AstroConditions),
        window_is_valid ms onb c = false →
        get_best_windows (conds ++ [c]) ms mh onb =
          get_best_windows conds ms mh onb) ∧
    (∀ r : List AstroConditions, r ≠ [] →
        (∀ x ∈ r, window_is_valid ms onb x = true) →
        get_best_windows r ms mh onb =
          if mh ≤ r.length then [runWindow r] else []) ∧
    (∀ (s r : List AstroConditions) (b : AstroConditions),
        window_is_valid ms onb b = false → r ≠ [] →
        (∀ x ∈ r, window_is_valid ms onb x = true) →
        windowScan ms mh onb (s ++ b :: r) none [] =
          windowScan ms mh onb (s ++ [b]) none [] ++
            (if mh ≤ r.length then [runWindow r] else [])) := by
  refine ⟨?_, ?_, ?_⟩
  · intro conds c hc
    rw [get_best_windows, get_best_windows,
      windowScan_append_invalid ms mh onb c hc]
  · intro r hne hval
    rw [get_best_windows, windowScan_all_valid ms mh onb r hne hval]
    by_cases h : mh ≤ r.length <;> simp [h, sortByAvgDesc, insertByAvgDesc]
  · intro s r b hb hne hval
    exact windowScan_separator ms mh onb r b hb hne hval s none

/-- Witness for C6 at concrete inputs around the demo samples. -/
theorem C6_trailing_window_witness :
    window_is_valid 60 false (demoSample 5 100 (5/3)) = false ∧
    get_best_windows (demoConds ++ [demoSample 5 100 (5/3)]) 60 1 false =
      get_best_windows demoConds 60 1 false ∧
    get_best_windows [demoSample 0 20 1] 60 1 false =
      (if 1 ≤ ([demoSample 0 20 1] : List AstroConditions).length
       then [runWindow [demoSample 0 20 1]] else []) ∧
    windowScan 60 1 false
        ([demoSample 0 40 1] ++ demoSample 1 100 (5/3) :: [demoSample 2 20 1])
        none [] =
      windowScan 60 1 false ([demoSample 0 40 1] ++ [demoSample 1 100 (5/3)])
          none [] ++
        (if 1 ≤ ([demoSample 2 20 1] : List AstroConditions).length
         then [runWindow [demoSample 2 20 1]] else []) := by
  refine ⟨demo_invalid_mid 5, ?_, ?_, ?_⟩
  · exact (C6_trailing_window 60 1 false).1 demoConds _ (demo_invalid_mid 5)
  · refine (C6_trailing_window 60 1 false).2.1 [demoSample 0 20 1] (by simp) ?_
    intro x hx
    rw [List.mem_singleton.mp hx]
    exact demo_valid_20 0
  · refine (C6_trailing_window 60 1 false).2.2 [demoSample 0 40 1]
      [demoSample 2 20 1] (demoSample 1 100 (5/3)) (demo_invalid_mid 1)
      (by simp) ?_
    intro x hx
    rw [List.mem_singleton.mp hx]
    exact demo_valid_20 2

/-- C9: empty input or no qualifying sample yields an empty result; every
emitted window has at least one sample (so the aggregate divisions are
over a positive count) and at least `min_hours` samples; with
`min_hours ≤ 1` a single qualifying sample is emitted as a one-hour
window whose average equals its own score. -/
theorem C9_empty_and_edge :
    (∀ (ms : ℤ) (mh : ℕ) (onb : Bool), get_best_windows [] ms mh onb = []) ∧
    (∀ (conds : List AstroConditions) (ms : ℤ) (mh : ℕ) (onb : Bool),
        (∀ c ∈ conds, window_is_valid ms onb c = false) →
        get_best_windows conds ms mh onb = []) ∧
    (∀ (conds : List AstroConditions) (ms : ℤ) (mh : ℕ) (onb : Bool)
        (w : ObservationWindow), w ∈ get_best_windows conds ms mh onb →
        1 ≤ w.hours ∧ mh ≤ w.hours) ∧
    (∀ (c : AstroConditions) (ms : ℤ) (mh : ℕ) (onb : Bool),
        window_is_valid ms onb c = true → mh ≤ 1 →
        get_best_windows [c] ms mh onb = [runWindow [c]] ∧
        (runWindow [c]).hours = 1 ∧
        (runWindow [c]).avg_score = (calculate_astro_score c : ℚ)) := by
  refine ⟨?_, ?_, ?_, ?_⟩
  · intro ms mh onb
    rfl
  · intro conds ms mh onb hinv
    rw [get_best_windows, windowScan_eq, splitRuns_all_invalid _ conds hinv]
    rfl
  · intro conds ms mh onb w hw
    rw [get_best_windows, mem_sortByAvgDesc, windowScan_eq] at hw
    obtain ⟨r, hr, heq⟩ := List.mem_map.mp hw
    have hf := List.mem_filter.mp hr
    obtain ⟨hne, -, -⟩ := splitRuns_sound _ conds.length conds le_rfl r hf.1
    have hlen : mh ≤ r.length := by simpa using hf.2
    have hh : w.hours = r.length := by rw [← heq, runWindow_hours]
    have hpos : 1 ≤ r.length := by
      cases r with
      | nil => exact absurd rfl hne
      | cons _ _ => simp
    omega
  · intro c ms mh onb hval hmh
    have hvall : ∀ x ∈ ([c] : List AstroConditions),
        window_is_valid ms onb x = true := by
      intro x hx
      rw [List.mem_singleton.mp hx]
      exact hval
    have h1 : get_best_windows [c] ms mh onb = [runWindow [c]] := by
      rw [get_best_windows, windowScan_all_valid ms mh onb [c] (by simp) hvall,
        if_pos (by simpa using hmh)]
      rfl
    refine ⟨h1, runWindow_hours [c], ?_⟩
    simp [runWindow, closeWindow, openOf, mkOpen]

/-- Witness for C9 at concrete inputs. -/
theorem C9_empty_and_edge_witness :
    get_best_windows [] 60 2 true = [] ∧
    get_best_windows [demoSample 0 40 1] 90 2 false = [] ∧
    (1 ≤ (runWindow [demoSample 0 40 1]).hours ∧
      1 ≤ (runWindow [demoSample 0 40 1]).hours) ∧
    (get_best_windows [demoSample 0 40 1] 60 1 false =
        [runWindow [demoSample 0 40 1]] ∧
      (runWindow [demoSample 0 40 1]).hours = 1 ∧
      (runWindow [demoSample 0 40 1]).avg_score =
        (calculate_astro_score (demoSample 0 40 1) : ℚ)) := by
  have h4 := C9_empty_and_edge.2.2.2 (demoSample 0 40 1) 60 1 false
    (demo_valid_40 0) (le_refl 1)
  refine ⟨C9_empty_and_edge.1 60 2 true, ?_, ?_, h4⟩
  · refine C9_empty_and_edge.2.1 [demoSample 0 40 1] 90 2 false ?_
    intro x hx
    rw [List.mem_singleton.mp hx]
    simp only [window_is_valid, demo_score_40]
    decide
  · refine C9_empty_and_edge.2.2.1 [demoSample 0 40 1] 60 1 false
      (runWindow [demoSample 0 40 1]) ?_
    rw [h4.1]
    simp

lemma demo_splitRuns :
    splitRuns (window_is_valid 60 false) demoConds =
      [[demoSample 0 40 1, demoSample 1 50 1],
       [demoSample 3 20 1, demoSample 4 10 1]] := by
  simp [demoConds, splitRuns, demo_valid_40, demo_valid_50, demo_invalid_mid,
    demo_valid_20, demo_valid_10]

lemma demo_avg_12 :
    (runWindow [demoSample 0 40 1, demoSample 1 50 1]).avg_score = 155/2 := by
  simp [runWindow, closeWindow, openOf, mkOpen, extendOpen, demo_score_40,
    demo_score_50]
  norm_num

lemma demo_avg_45 :
    (runWindow [demoSample 3 20 1, demoSample 4 10 1]).avg_score = 185/2 := by
  simp [runWindow, closeWindow, openOf, mkOpen, extendOpen, demo_score_20,
    demo_score_10]
  norm_num

/-- C5: on the 5-sample demo input with scores 80, 75, 40, 90, 95 and
`min_score = 60`, `min_hours = 1`, `only_night = False`, exactly two
windows are produced — samples 1-2 and samples 4-5, each of two hours,
the score-40 sample bridging nothing — and with `min_hours = 3` none. -/
theorem C5_demo_windows :
    get_best_windows demoConds 60 1 false =
      [runWindow [demoSample 3 20 1, demoSample 4 10 1],
       runWindow [demoSample 0 40 1, demoSample 1 50 1]] ∧
    (get_best_windows demoConds 60 1 false).map
        (fun w => (w.start, w.stop, w.hours)) =
      [(3, 4, 2), (0, 1, 2)] ∧
    get_best_windows demoConds 60 3 false = [] := by
  have hcmp : ¬((runWindow [demoSample 3 20 1, demoSample 4 10 1]).avg_score ≤
      (runWindow [demoSample 0 40 1, demoSample 1 50 1]).avg_score) := by
    rw [demo_avg_45, demo_avg_12]
    norm_num
  have h1 : get_best_windows demoConds 60 1 false =
      [runWindow [demoSample 3 20 1, demoSample 4 10 1],
       runWindow [demoSample 0 40 1, demoSample 1 50 1]] := by
    rw [get_best_windows, windowScan_eq, demo_splitRuns]
    have hfil : List.filter (fun r => decide (1 ≤ r.length))
        [[demoSample 0 40 1, demoSample 1 50 1],
         [demoSample 3 20 1, demoSample 4 10 1]] =
        [[demoSample 0 40 1, demoSample 1 50 1],
         [demoSample 3 20 1, demoSample 4 10 1]] := by
      simp
    rw [hfil]
    simp only [List.map_cons, List.map_nil, sortByAvgDesc, List.foldr_cons,
      List.foldr_nil, insertByAvgDesc]
    rw [if_neg hcmp]
  refine ⟨h1, ?_, ?_⟩
  · rw [h1]
    simp [runWindow, closeWindow, openOf, mkOpen, extendOpen, demoSample]
  · rw [get_best_windows, windowScan_eq, demo_splitRuns]
    have hfil : List.filter (fun r => decide (3 ≤ r.length))
        [[demoSample 0 40 1, demoSample 1 50 1],
         [demoSample 3 20 1, demoSample 4 10 1]] = [] := by
      simp
    rw [hfil]
    rfl
